import Mathlib

/-!
Verification development for the membership service of
`src/src/organization/organization.service.ts`.

The service orchestrates a relational store (users, organizations,
memberships, role labels), a transient key-value store (pending
invitations) and an email transport.  We embed it shallowly:

* the relational tables and the key-value store become lists inside a
  `State` record; the email transport becomes a log of sent emails;
* every service method becomes a pure function
  `... → State → Except String α × State`; a JavaScript `throw` becomes
  `Except.error msg` paired with the state at the moment of the throw
  (so partially-performed mutations are kept, as in the real code);
* randomness (the `otp-generator` code and `crypto.randomBytes`) is
  passed in explicitly as a list of random numbers;
* `bcrypt.hash` is modelled as an injective tagging function: the only
  facts the development relies on are that the stored value is the image
  of the supplied password under the hash, and that this image differs
  from the plaintext;
* Redis values are strings in the real system.  `acceptInvitation` only
  ever inspects the result of `JSON.parse` on the stored string, through
  the fields `code`, `name`, `newuser` and `roles`, so we model a stored
  value by the outcome of parsing it: `unparseable` (JSON.parse throws),
  `falsy` (it parses to a falsy JavaScript value such as `null`, `false`,
  `0` or the empty string), or an object with those four fields.  The
  `code` field is modelled as an optional string (`none` = the field is
  absent or undefined); a stored non-string `code` behaves in JavaScript
  like a mismatching one (strict `!==` against a string), which the
  `falsy`/mismatch cases already cover.  The `roles` field is an optional
  list (`none` = absent or not an array, in which case `.map` throws).
  An absent key read through `JSON.parse(null)` yields `null`, a falsy
  value.

Time (the invitation TTL) is not modelled: no claim under scrutiny
involves expiry.
-/

/-- Credential data of a user row (`authData` JSON column). -/
structure AuthData where
  password : String
  deriving Repr, DecidableEq

/-- Profile data of a user row (`profileData` JSON column); `addUser`
only sets `firstname`, `acceptInvitation` also sets `lastname` and
`status`, hence the optional fields. -/
structure ProfileData where
  firstname : String
  lastname : Option String
  status : Option String
  deriving Repr, DecidableEq

/-- A row of the `user` table. -/
structure UserRec where
  id : String
  email : String
  authData : AuthData
  profileData : ProfileData
  deriving Repr, DecidableEq

/-- A row of the `organization` table. -/
structure OrgRec where
  id : String
  name : String
  identifier : String
  deriving Repr, DecidableEq

/-- A row of the `organizationUser` (membership) table. -/
structure MembershipRec where
  id : String
  userID : String
  organizationID : String
  isAdmin : Bool
  deriving Repr, DecidableEq

/-- A row of the `role` table; `organizationUserID` points at the owning
membership. -/
structure RoleRec where
  id : String
  name : String
  organizationUserID : String
  deriving Repr, DecidableEq

/-- The parse outcome of a value stored in the key-value store (see the
module comment for the correspondence with JavaScript semantics). -/
inductive RedisVal where
  | unparseable
  | falsy
  | obj (code : Option String) (name : String) (newuser : Bool)
        (roles : Option (List String))
  deriving Repr, DecidableEq

/-- An email handed to the transport. -/
structure Email where
  toAddr : String
  subject : String
  body : String
  deriving Repr, DecidableEq

/-- Static configuration (`src/keys`): redirect URL, display name for the
email footer and the invitation TTL in seconds. -/
structure Keys where
  REDIRECT_URL : String
  ORG_NAME : String
  CODE_EXPIRY : Nat
  deriving Repr, DecidableEq

/-- The whole world visible to the service: the four relational tables,
the key-value store (association list, most recent binding first), the
log of emails given to the transport, and a counter used to mint the
row ids that the stores generate. -/
structure State where
  users : List UserRec
  organizations : List OrgRec
  memberships : List MembershipRec
  roles : List RoleRec
  redis : List (String × RedisVal)
  emails : List Email
  nextId : Nat
  deriving Repr, DecidableEq

/-- Mint a fresh row id from the state counter. -/
def freshId (n : Nat) : String :=
  "id" ++ toString n

/-- Model of `prisma.user.findUnique({ where: { email } })`. -/
def findUserByEmail (s : State) (email : String) : Option UserRec :=
  s.users.find? (fun u => u.email == email)

/-- Model of `prisma.user.findUnique({ where: { id } })` and of the
prisma `connect: { id }` lookup. -/
def findUserById (s : State) (id : String) : Option UserRec :=
  s.users.find? (fun u => u.id == id)

/-- Model of `prisma.organization.findUnique({ where: { id } })`. -/
def findOrgById (s : State) (id : String) : Option OrgRec :=
  s.organizations.find? (fun o => o.id == id)

/-- Model of `prisma.organizationUser.findFirst({ where: { organizationID, userID } })`. -/
def findMembership (s : State) (organizationID userID : String) : Option MembershipRec :=
  s.memberships.find? (fun m => m.organizationID == organizationID && m.userID == userID)

/-- The list returned by
`prisma.organizationUser.findMany({ where: { isAdmin: true, organizationID } })`. -/
def adminsOf (s : State) (organizationID : String) : List MembershipRec :=
  s.memberships.filter (fun m => m.isAdmin && m.organizationID == organizationID)

/-- Number of admin memberships of an organization. -/
def countAdmins (s : State) (organizationID : String) : Nat :=
  (adminsOf s organizationID).length

/-- The Redis key used for a pending invitation. -/
def inviteKey (organizationID email : String) : String :=
  "invite:" ++ organizationID ++ "-" ++ email

/-- Model of `redis.get`. -/
def redisGet (s : State) (k : String) : Option RedisVal :=
  (s.redis.find? (fun p => p.1 == k)).map (fun p => p.2)

/-- Model of `redis.set` (overwrites any previous binding of the key). -/
def redisSet (s : State) (k : String) (v : RedisVal) : State :=
  { s with redis := (k, v) :: s.redis.filter (fun p => p.1 != k) }

/-- Model of `redis.del`. -/
def redisDel (s : State) (k : String) : State :=
  { s with redis := s.redis.filter (fun p => p.1 != k) }

/-- Model of `mailerService.sendEmail` (the transport is fire-and-forget;
we record the email in the log). -/
def sendEmail (s : State) (toAddr subject body : String) : State :=
  { s with emails := s.emails ++ [⟨toAddr, subject, body⟩] }

/-- Model of `bcrypt.hash(data, rounds)`: an injective tagging standing
for the salted one-way hash.  The development only uses that the stored
credential equals this image and that the image differs from the
plaintext. -/
def bcryptHash (data : String) (rounds : Nat) : String :=
  "$2b$" ++ toString rounds ++ "$" ++ data

/-- Model of the error thrown by `JSON.parse` on an unparseable string. -/
def jsonParseError : String :=
  "SyntaxError: unexpected token in JSON"

/-- Model of the TypeError raised by reading `user.id` when `user` is null. -/
def nullUserIdError : String :=
  "TypeError: cannot read properties of null, reading id"

/-- Model of the error raised by `bcrypt.hash(null, 10)`. -/
def bcryptNullError : String :=
  "Error: data and salt arguments required"

/-- Model of the TypeError raised by `invite.roles.map` when `roles` is
absent or not an array. -/
def rolesMapError : String :=
  "TypeError: invite.roles.map is not a function"

/-- Model of the prisma unique-constraint failure on `user.email`. -/
def uniqueEmailError : String :=
  "Unique constraint failed on the fields: email"

/-- Model of the prisma foreign-key failure on `organizationUser.organizationID`. -/
def fkOrganizationError : String :=
  "Foreign key constraint failed on the field: organizationID"

/-- Model of the prisma failure of `connect: { id }` when the referenced
record does not exist. -/
def connectNotFoundError : String :=
  "An operation failed because it depends on one or more records that were required but not found"

/-- The character set used by `otp-generator` under the options at the
call site `otp.generate(6, lowerCaseAlphabets: false, specialChars: false,
digits: true, upperCaseAlphabets: true)`: the library concatenates the
enabled alphabets, here the decimal digits followed by the uppercase
letters. -/
def otpAllowedChars : List Char :=
  "0123456789ABCDEFGHIJKLMNOPQRSTUVWXYZ".toList

/-- Loop of `otp-generator`: repeatedly draw a character of the allowed
set; with `digits: true` a leading `0` is skipped.  The random draws are
supplied as a list (each entry taken modulo the alphabet size, matching
`crypto.randomInt(0, allowsChars.length)`); the loop stops when the
requested length is reached or the supply runs out. -/
def otpGo (len : Nat) : List Nat → List Char → List Char
  | [], acc => acc
  | r :: rs, acc =>
    if acc.length < len then
      let c := otpAllowedChars.getD (r % otpAllowedChars.length) '0'
      if acc.length = 0 ∧ c = '0' then otpGo len rs acc
      else otpGo len rs (acc ++ [c])
    else acc

/-- Model of `otp.generate(len, ...)` at the option set used by the
service (digits and uppercase letters enabled). -/
def otpGenerate (len : Nat) (rands : List Nat) : String :=
  String.mk (otpGo len rands [])

/-- Hex digit characters, lowercase as produced by Node `Buffer.toString`. -/
def hexDigit (n : Nat) : Char :=
  "0123456789abcdef".toList.getD n '0'

/-- Two-character lowercase hex encoding of one byte. -/
def byteHex (b : Nat) : String :=
  String.mk [hexDigit (b / 16 % 16), hexDigit (b % 16)]

/-- Model of `randomBytes(n).toString(hex)`; the drawn bytes are supplied
as a list. -/
def hexEncode : List Nat → String
  | [] => ""
  | b :: bs => byteHex b ++ hexEncode bs

/-- Render a Bool the way a JavaScript template literal renders it. -/
def jsBool (b : Bool) : String :=
  if b then "true" else "false"

/-- Subject line of the invitation email. -/
def inviteSubject (orgName : String) : String :=
  "Invitation: You\x27ve been invited to join " ++ orgName

/-- Body of the invitation email (the HTML template of `inviteUser` with
its interpolations; surrounding whitespace of the template elided). -/
def inviteBody (ks : Keys) (name orgName email organizationID : String)
    (newUser : Bool) (code : String) : String :=
  "<p>Hi " ++ name ++ ",</p>" ++
  "<p>You\x27ve been invited to join " ++ orgName ++ "</p>" ++
  "<p>If you want to join please press the link <a href=" ++
    ks.REDIRECT_URL ++ "/join?user=" ++ email ++ "&org=" ++ organizationID ++
    "&newuser=" ++ jsBool newUser ++ "&code=" ++ code ++ "&name=" ++ name ++
    ">here</a></p>" ++
  "<p>Thanks,</p><p>" ++ ks.ORG_NAME ++ ".</p>"

/-- Create the role rows of a `roles: createMany` nested write, one row
per requested name, owned by membership `mid`. -/
def createRoles (mid : String) : List String → State → State
  | [], s => s
  | r :: rs, s =>
      createRoles mid rs
        { s with roles := s.roles ++ [⟨freshId s.nextId, r, mid⟩],
                 nextId := s.nextId + 1 }

/-- Model of `addUser`: one nested `organizationUser.create` building a
new user (credential data stored exactly as supplied by the caller — the
source applies no hashing here, in contrast with `acceptInvitation`),
connecting the organization, and creating the role rows.  The nested
write is atomic: on a unique-email or missing-organization failure
nothing is persisted.  The relative order of those two failure modes is
not observable in the claims and is modelled as email first. -/
def addUser (email name password organizationID : String) (roles : List String)
    (s : State) : Except String MembershipRec × State :=
  if (findUserByEmail s email).isSome then (.error uniqueEmailError, s)
  else if (findOrgById s organizationID).isNone then (.error connectNotFoundError, s)
  else
    let uid := freshId s.nextId
    let newU : UserRec := ⟨uid, email, ⟨password⟩, ⟨name, none, none⟩⟩
    let mid := freshId (s.nextId + 1)
    let m : MembershipRec := ⟨mid, uid, organizationID, false⟩
    let s1 := { s with users := s.users ++ [newU],
                       memberships := s.memberships ++ [m],
                       nextId := s.nextId + 2 }
    (.ok m, createRoles mid roles s1)

/-- Model of `inviteUser`: look up the user by email and the organization
by id; fail if the organization is absent; fail if the user exists and
already has a membership; otherwise generate the code, send the email and
store the pending invitation (overwriting any previous one). -/
def inviteUser (ks : Keys) (email name organizationID : String)
    (roles : List String) (rands : List Nat) (s : State) :
    Except String Bool × State :=
  let user := findUserByEmail s email
  match findOrgById s organizationID with
  | none => (.error "no organization exists", s)
  | some organization =>
    let isMember := match user with
      | some u => (findMembership s organization.id u.id).isSome
      | none => false
    if isMember then (.error "already part of organization", s)
    else
      let newUser := user.isNone
      let code := otpGenerate 6 rands
      let s1 := sendEmail s email (inviteSubject organization.name)
        (inviteBody ks name organization.name email organizationID newUser code)
      let s2 := redisSet s1 (inviteKey organizationID email)
        (.obj (some code) name newUser (some roles))
      (.ok true, s2)

/-- Last phase of `acceptInvitation`: create the membership (with the role
rows captured in the invitation) and delete the pending invitation.  The
`invite.roles.map` call is evaluated while building the create arguments,
so an absent/non-array `roles` raises before the store is touched; the
store then enforces the foreign key on `organizationID`. -/
def acceptFinish (email organizationID userID : String)
    (rolesOpt : Option (List String)) (s : State) :
    Except String Bool × State :=
  match rolesOpt with
  | none => (.error rolesMapError, s)
  | some roleNames =>
    match findOrgById s organizationID with
    | none => (.error fkOrganizationError, s)
    | some _ =>
      let mid := freshId s.nextId
      let m : MembershipRec := ⟨mid, userID, organizationID, false⟩
      let s1 := { s with memberships := s.memberships ++ [m],
                         nextId := s.nextId + 1 }
      let s2 := createRoles mid roleNames s1
      (.ok true, redisDel s2 (inviteKey organizationID email))

/-- Middle phase of `acceptInvitation`, after the code verification
succeeded: resolve the user.  For a new user the password is hashed with
bcrypt (a null password makes bcrypt itself fail) and the user row is
created (subject to the unique constraint on email); for an existing user
the row is looked up by email, and a missing row leads to the unguarded
`user.id` dereference of a null value. -/
def acceptVerified (email organizationID : String) (password : Option String)
    (name : String) (newuser : Bool) (rolesOpt : Option (List String))
    (s : State) : Except String Bool × State :=
  if newuser then
    match password with
    | none => (.error bcryptNullError, s)
    | some pw =>
      let hashpass := bcryptHash pw 10
      match findUserByEmail s email with
      | some _ => (.error uniqueEmailError, s)
      | none =>
        let uid := freshId s.nextId
        let newU : UserRec := ⟨uid, email, ⟨hashpass⟩, ⟨name, some "", some "verified"⟩⟩
        let s1 := { s with users := s.users ++ [newU], nextId := s.nextId + 1 }
        acceptFinish email organizationID uid rolesOpt s1
  else
    match findUserByEmail s email with
    | none => (.error nullUserIdError, s)
    | some u => acceptFinish email organizationID u.id rolesOpt s

/-- Model of `acceptInvitation`: read the pending invitation, parse it
(`JSON.parse` throws on an unparseable value; an absent key parses to
null), run the verification check
`!invite or !invite.code or invite.code strictly-differs-from code`,
then hand over to the verified phase. -/
def acceptInvitation (email organizationID code : String)
    (password : Option String) (s : State) : Except String Bool × State :=
  match redisGet s (inviteKey organizationID email) with
  | some .unparseable => (.error jsonParseError, s)
  | none => (.error "unable to verify code", s)
  | some .falsy => (.error "unable to verify code", s)
  | some (.obj codeOpt name newuser rolesOpt) =>
    match codeOpt with
    | none => (.error "unable to verify code", s)
    | some c =>
      if c = "" ∨ c ≠ code then (.error "unable to verify code", s)
      else acceptVerified email organizationID password name newuser rolesOpt s

/-- Projected view of a user inside `fetchOrganizationUsers`: only the
email and the profile data are selected. -/
structure UserView where
  email : String
  profileData : ProfileData
  deriving Repr, DecidableEq

/-- One element of the `fetchOrganizationUsers` result: the membership
row with the projected user included. -/
structure OrgUserView where
  id : String
  userID : String
  organizationID : String
  isAdmin : Bool
  user : Option UserView
  deriving Repr, DecidableEq

/-- Model of `fetchOrganizationUsers`: every membership of the
organization, each carrying the linked user projected to email and
profile data. -/
def fetchOrganizationUsers (organizationID : String) (s : State) :
    List OrgUserView :=
  (s.memberships.filter (fun m => m.organizationID == organizationID)).map
    (fun m => ⟨m.id, m.userID, m.organizationID, m.isAdmin,
      (findUserById s m.userID).map (fun u => ⟨u.email, u.profileData⟩)⟩)

/-- Model of `createOrganization`: build the identifier from the name and
six random bytes, then one nested create producing the organization and
its admin membership; `connect: { id: adminID }` fails when the user does
not exist, in which case nothing is persisted. -/
def createOrganization (adminID name : String) (bytes : List Nat) (s : State) :
    Except String Bool × State :=
  let identifier := name ++ "-" ++ hexEncode bytes
  match findUserById s adminID with
  | none => (.error connectNotFoundError, s)
  | some _ =>
    let oid := freshId s.nextId
    let newOrg : OrgRec := ⟨oid, name, identifier⟩
    let mid := freshId (s.nextId + 1)
    let m : MembershipRec := ⟨mid, adminID, oid, true⟩
    (.ok true,
     { s with organizations := s.organizations ++ [newOrg],
              memberships := s.memberships ++ [m],
              nextId := s.nextId + 2 })

/-- Delete a membership row by id, cascading its role rows (the schema
cascade the spec describes). -/
def deleteMembershipById (mid : String) (s : State) : State :=
  { s with memberships := s.memberships.filter (fun x => x.id != mid),
           roles := s.roles.filter (fun r => r.organizationUserID != mid) }

/-- Model of `leaveOrganization`: find the membership; an admin may not
leave while the admin count of the organization is exactly one; otherwise
the membership is deleted. -/
def leaveOrganization (userID organizationID : String) (s : State) :
    Except String Bool × State :=
  match findMembership s organizationID userID with
  | none => (.error "you are not part of this organization", s)
  | some user =>
    if user.isAdmin && (adminsOf s organizationID).length == 1 then
      (.error "admin cannot leave organization", s)
    else
      (.ok true, deleteMembershipById user.id s)

/-- The error messages this component itself throws. -/
def declaredErrorMessages : List String :=
  ["no organization exists", "already part of organization",
   "unable to verify code", "user not present in organization",
   "you are not part of this organization", "admin cannot leave organization"]

/-! ## Sample states used by witnesses and counterexamples -/

/-- A sample organization row. -/
def sampleOrg : OrgRec := ⟨"o1", "Acme", "Acme-aabbccddeeff"⟩

/-- Sample static configuration. -/
def sampleKeys : Keys := ⟨"https://app.example.com", "Example Corp", 600⟩

/-- A store holding one organization and nothing else. -/
def sampleState0 : State := ⟨[], [sampleOrg], [], [], [], [], 0⟩

/-- A store holding one pending invitation with code 123456. -/
def sC3 : State :=
  ⟨[], [], [], [],
   [(inviteKey "o1" "a@b.c", .obj (some "123456") "Bob" true (some []))], [], 0⟩

/-- A store whose pending invitation value is unparseable. -/
def sC4 : State :=
  ⟨[], [], [], [], [(inviteKey "o1" "a@b.c", .unparseable)], [], 0⟩

/-- A store with one user who is already an admin member of the sample
organization. -/
def sC6 : State :=
  ⟨[⟨"u1", "a@b.c", ⟨"h"⟩, ⟨"Ann", none, none⟩⟩], [sampleOrg],
   [⟨"m1", "u1", "o1", true⟩], [], [], [], 5⟩

/-- A store holding the sample organization and a matching pending
invitation for a brand-new user. -/
def sC7 : State :=
  ⟨[], [sampleOrg], [], [],
   [(inviteKey "o1" "b@c.d", .obj (some "123456") "Bea" true (some []))], [], 0⟩

/-- A store whose pending invitation says the invited user already exists
although no user row carries that email. -/
def sC10 : State :=
  ⟨[], [sampleOrg], [], [],
   [(inviteKey "o1" "a@b.c", .obj (some "123456") "Bob" false (some []))], [], 0⟩

/-! ## Easy per-claim results -/

/-- C3: an `acceptInvitation` call whose supplied code differs from the
code stored in the pending invitation fails verification with
"unable to verify code" and leaves the whole state — relational store,
key-value store and email log — unchanged. -/
theorem C3_mismatch_no_mutation (s : State) (email organizationID code : String)
    (password : Option String) (c name : String) (newuser : Bool)
    (rolesOpt : Option (List String))
    (hget : redisGet s (inviteKey organizationID email) =
      some (.obj (some c) name newuser rolesOpt))
    (hne : c ≠ code) :
    acceptInvitation email organizationID code password s =
      (.error "unable to verify code", s) := by
  unfold acceptInvitation
  rw [hget]
  simp [hne]

/-- Witness for C3 at a concrete store: stored code 123456, supplied
code 654321. -/
theorem C3_witness :
    acceptInvitation "a@b.c" "o1" "654321" none sC3 =
      (.error "unable to verify code", sC3) :=
  C3_mismatch_no_mutation sC3 "a@b.c" "o1" "654321" none "123456" "Bob" true
    (some []) (by decide) (by decide)

/-- C10: when the pending invitation matches but records `newuser = false`
while no user row carries the invited email, `acceptInvitation` runs into
the unguarded `user.id` dereference of a null value — surfacing a
TypeError that is none of the component's declared error messages — and
no store mutation has happened at that point. -/
theorem C10_null_deref_on_missing_user (s : State)
    (email organizationID code : String) (password : Option String)
    (name : String) (rolesOpt : Option (List String))
    (hget : redisGet s (inviteKey organizationID email) =
      some (.obj (some code) name false rolesOpt))
    (hcode : code ≠ "")
    (huser : findUserByEmail s email = none) :
    acceptInvitation email organizationID code password s =
      (.error nullUserIdError, s) ∧
    nullUserIdError ∉ declaredErrorMessages := by
  refine ⟨?_, by decide⟩
  unfold acceptInvitation
  rw [hget]
  simp [hcode]
  unfold acceptVerified
  simp [huser]

/-- Witness for C10 at a concrete store. -/
theorem C10_witness :
    acceptInvitation "a@b.c" "o1" "123456" none sC10 =
      (.error nullUserIdError, sC10) ∧
    nullUserIdError ∉ declaredErrorMessages :=
  C10_null_deref_on_missing_user sC10 "a@b.c" "o1" "123456" none "Bob"
    (some []) (by decide) (by decide) (by decide)

/-- C6: inviting a user who already holds a membership in the (existing)
target organization fails with "already part of organization" and leaves
the state unchanged — in particular no email is sent and no pending
invitation is stored. -/
theorem C6_invite_existing_member_conflict (ks : Keys)
    (email name organizationID : String) (roles : List String)
    (rands : List Nat) (s : State) (org : OrgRec) (u : UserRec)
    (horg : findOrgById s organizationID = some org)
    (hu : findUserByEmail s email = some u)
    (hm : (findMembership s org.id u.id).isSome = true) :
    inviteUser ks email name organizationID roles rands s =
      (.error "already part of organization", s) := by
  unfold inviteUser
  rw [horg]
  simp [hu, hm]

/-- Witness for C6 at a concrete store where user u1 is a member of o1. -/
theorem C6_witness :
    inviteUser sampleKeys "a@b.c" "Ann" "o1" [] [] sC6 =
      (.error "already part of organization", sC6) :=
  C6_invite_existing_member_conflict sampleKeys "a@b.c" "Ann" "o1" [] [] sC6
    sampleOrg ⟨"u1", "a@b.c", ⟨"h"⟩, ⟨"Ann", none, none⟩⟩
    (by decide) (by decide) (by decide)

/-- C7: `addUser` stores the caller-supplied password verbatim in the
created user row — evaluated here at email a@b.c, password "secret",
organization o1 — and the stored value is not the bcrypt image of the
password; by contrast the new-user branch of `acceptInvitation` (run at
a matching concrete invitation) stores exactly the bcrypt image. -/
theorem C7_addUser_stores_plaintext :
    ((addUser "a@b.c" "Ann" "secret" "o1" [] sampleState0).2.users.map
        (fun u => u.authData.password) = ["secret"]) ∧
    "secret" ≠ bcryptHash "secret" 10 ∧
    ((acceptInvitation "b@c.d" "o1" "123456" (some "pw") sC7).2.users.map
        (fun u => u.authData.password) = [bcryptHash "pw" 10]) := by
  decide

/-- C4 counterexample: on a stored invitation value that `JSON.parse`
cannot parse, `acceptInvitation` does not fail with
"unable to verify code": the parse error propagates instead. -/
theorem C4_counterexample :
    acceptInvitation "a@b.c" "o1" "123456" none sC4 =
      (.error jsonParseError, sC4) ∧
    jsonParseError ≠ "unable to verify code" :=
  ⟨rfl, by decide⟩

/-! ## Characterization of the verification failure (C4) -/

/-- Spec-side characterization (following the amended wording of the
claim) of when `acceptInvitation` fails with "unable to verify code",
as a predicate on the parse outcome of the stored invitation value and
the supplied code: the invitation is absent, or it parses to a falsy
value, or its `code` field is absent or falsy, or the codes differ; an
unparseable value is excluded (there the parse error propagates
instead). -/
def verifyRejectsSpec : Option RedisVal → String → Prop
  | none, _ => True
  | some .unparseable, _ => False
  | some .falsy, _ => True
  | some (.obj codeOpt _ _ _), code =>
      match codeOpt with
      | none => True
      | some c => c = "" ∨ c ≠ code

/-- The final phase of acceptance returns success or one of the two
store/TypeError failures. -/
lemma acceptFinish_fst (email organizationID userID : String)
    (rolesOpt : Option (List String)) (s : State) :
    (acceptFinish email organizationID userID rolesOpt s).1 = .ok true ∨
    (acceptFinish email organizationID userID rolesOpt s).1 = .error rolesMapError ∨
    (acceptFinish email organizationID userID rolesOpt s).1 = .error fkOrganizationError := by
  unfold acceptFinish
  rcases rolesOpt with _ | roleNames
  · simp
  · rcases h : findOrgById s organizationID with _ | org <;> simp [h]

/-- The phase of `acceptInvitation` that runs after the code check never
produces the "unable to verify code" failure. -/
lemma acceptVerified_fst_ne (email organizationID : String)
    (password : Option String) (name : String) (newuser : Bool)
    (rolesOpt : Option (List String)) (s : State) :
    (acceptVerified email organizationID password name newuser rolesOpt s).1 ≠
      Except.error "unable to verify code" := by
  unfold acceptVerified
  cases newuser
  · simp only [Bool.false_eq_true, if_false]
    rcases h : findUserByEmail s email with _ | u
    · simp [nullUserIdError]
    · rcases acceptFinish_fst email organizationID u.id rolesOpt s with h1 | h1 | h1 <;>
        simp [h1, rolesMapError, fkOrganizationError]
  · simp only [if_true]
    rcases password with _ | pw
    · simp [bcryptNullError]
    · rcases h : findUserByEmail s email with _ | u
      · simp only [h]
        rcases acceptFinish_fst email organizationID (freshId s.nextId) rolesOpt
            { s with
              users := s.users ++
                [⟨freshId s.nextId, email, ⟨bcryptHash pw 10⟩, ⟨name, some "", some "verified"⟩⟩],
              nextId := s.nextId + 1 } with h1 | h1 | h1 <;>
          simp [h1, rolesMapError, fkOrganizationError]
      · simp [h, uniqueEmailError]

/-- C4 (amended): `acceptInvitation` fails with "unable to verify code"
exactly when the pending invitation is absent, parses to a falsy value,
parses to an object whose `code` field is absent or falsy, or carries a
code different from the supplied one.  An unparseable stored value does
not reach this failure: the JSON parse error propagates instead (see the
counterexample theorem for that branch evaluated concretely). -/
theorem C4_amended (s : State) (email organizationID code : String)
    (password : Option String) :
    ((acceptInvitation email organizationID code password s).1 =
        Except.error "unable to verify code") ↔
      verifyRejectsSpec (redisGet s (inviteKey organizationID email)) code := by
  unfold acceptInvitation
  rcases hget : redisGet s (inviteKey organizationID email) with _ | v
  · simp [verifyRejectsSpec]
  · rcases v with _ | _ | ⟨codeOpt, name, newuser, rolesOpt⟩
    · simpa [verifyRejectsSpec] using by decide
    · simp [verifyRejectsSpec]
    · rcases codeOpt with _ | c
      · simp [verifyRejectsSpec]
      · by_cases hc : c = "" ∨ c ≠ code
        · simp [hc, verifyRejectsSpec]
        · simp only [hc, if_false, verifyRejectsSpec, iff_false]
          exact acceptVerified_fst_ne email organizationID password name newuser rolesOpt s

/-! ## Shape of a successful invitation and the generated code (C1) -/

/-- Looking a key up right after setting it yields the stored value. -/
lemma redisGet_set_same (s : State) (k : String) (v : RedisVal) :
    redisGet (redisSet s k v) k = some v := by
  simp [redisGet, redisSet, List.find?]

/-- Dropping every binding of a key leaves nothing for `find?` to find. -/
lemma find?_filter_ne_none (l : List (String × RedisVal)) (k : String) :
    (l.filter (fun p => p.1 != k)).find? (fun p => p.1 == k) = none := by
  rw [List.find?_eq_none]
  intro p hp
  have h2 := (List.mem_filter.mp hp).2
  simpa using h2

/-- Looking a key up right after deleting it yields nothing. -/
lemma redisGet_del_same (s : State) (k : String) :
    redisGet (redisDel s k) k = none := by
  simp [redisGet, redisDel, find?_filter_ne_none]

/-- Every character drawn by the otp loop belongs to the allowed set. -/
lemma otpChar_mem (r : Nat) :
    otpAllowedChars.getD (r % otpAllowedChars.length) '0' ∈ otpAllowedChars := by
  have h : r % otpAllowedChars.length < otpAllowedChars.length :=
    Nat.mod_lt _ (by decide)
  rw [List.getD_eq_getElem _ _ h]
  exact List.getElem_mem h

/-- Characters accumulated by the otp loop stay inside the allowed set. -/
lemma otpGo_chars (len : Nat) (rands : List Nat) (acc : List Char)
    (hacc : ∀ ch ∈ acc, ch ∈ otpAllowedChars) :
    ∀ ch ∈ otpGo len rands acc, ch ∈ otpAllowedChars := by
  induction rands generalizing acc with
  | nil => simpa [otpGo] using hacc
  | cons r rs ih =>
    simp only [otpGo]
    split
    · split
      · exact ih acc hacc
      · apply ih
        intro ch hch
        rcases List.mem_append.mp hch with h | h
        · exact hacc ch h
        · rcases List.mem_singleton.mp h with rfl
          exact otpChar_mem r
    · exact hacc

/-- The allowed otp alphabet consists of decimal digits and uppercase
letters only. -/
lemma otpAllowedChars_digit_or_upper :
    ∀ ch ∈ otpAllowedChars, ch.isDigit = true ∨ ch.isUpper = true := by
  decide

/-- An `inviteUser` call on an existing organization whose invitee is not
yet a member succeeds and produces exactly the state reached by sending
the invitation email and storing the pending invitation under the
organization/email key. -/
lemma inviteUser_success (ks : Keys) (email name organizationID : String)
    (roles : List String) (rands : List Nat) (s : State) (org : OrgRec)
    (horg : findOrgById s organizationID = some org)
    (hmem : ∀ u, findUserByEmail s email = some u →
      (findMembership s org.id u.id).isSome = false) :
    inviteUser ks email name organizationID roles rands s =
      (.ok true,
       redisSet
         (sendEmail s email (inviteSubject org.name)
           (inviteBody ks name org.name email organizationID
             (findUserByEmail s email).isNone (otpGenerate 6 rands)))
         (inviteKey organizationID email)
         (.obj (some (otpGenerate 6 rands)) name
           (findUserByEmail s email).isNone (some roles))) := by
  unfold inviteUser
  rw [horg]
  rcases hu : findUserByEmail s email with _ | u
  · simp [hu]
  · simp [hu, hmem u hu]

/-- C1 counterexample: with random draws that all select index 10 of the
allowed alphabet, the `inviteUser` call at a concrete store generates and
stores the code "AAAAAA", which is not made of decimal digits. -/
theorem C1_counterexample :
    redisGet (inviteUser sampleKeys "e@x.com" "Bob" "o1" []
        [10, 10, 10, 10, 10, 10] sampleState0).2
        (inviteKey "o1" "e@x.com") =
      some (.obj (some "AAAAAA") "Bob" true (some [])) ∧
    ¬ ∀ ch ∈ "AAAAAA".toList, ch.isDigit = true := by
  exact ⟨by decide, by decide⟩

/-- C1 (amended): every `inviteUser` call that reaches code generation
(existing organization, invitee not already a member) and completes the
generation loop stores a code of exactly 6 characters, each of which is
a decimal digit or an uppercase letter — the option set at the call site
enables digits and uppercase alphabets and disables lowercase and
special characters. -/
theorem C1_amended (ks : Keys) (email name organizationID : String)
    (roles : List String) (rands : List Nat) (s : State) (org : OrgRec)
    (horg : findOrgById s organizationID = some org)
    (hmem : ∀ u, findUserByEmail s email = some u →
      (findMembership s org.id u.id).isSome = false)
    (hlen : (otpGenerate 6 rands).length = 6) :
    ∃ c : String,
      redisGet (inviteUser ks email name organizationID roles rands s).2
          (inviteKey organizationID email) =
        some (.obj (some c) name (findUserByEmail s email).isNone (some roles)) ∧
      c.length = 6 ∧
      ∀ ch ∈ c.toList, ch.isDigit = true ∨ ch.isUpper = true := by
  refine ⟨otpGenerate 6 rands, ?_, hlen, ?_⟩
  · rw [inviteUser_success ks email name organizationID roles rands s org horg hmem]
    exact redisGet_set_same ..
  · intro ch hch
    have h1 : ch ∈ otpGo 6 rands [] := hch
    exact otpAllowedChars_digit_or_upper ch (otpGo_chars 6 rands [] (by simp) ch h1)

/-- Witness for the amended C1 at a concrete store and concrete draws. -/
theorem C1_witness :
    ∃ c : String,
      redisGet (inviteUser sampleKeys "e@x.com" "Bob" "o1" []
          [1, 2, 3, 4, 5, 6] sampleState0).2
          (inviteKey "o1" "e@x.com") =
        some (.obj (some c) "Bob"
          (findUserByEmail sampleState0 "e@x.com").isNone (some [])) ∧
      c.length = 6 ∧
      ∀ ch ∈ c.toList, ch.isDigit = true ∨ ch.isUpper = true :=
  C1_amended sampleKeys "e@x.com" "Bob" "o1" [] [1, 2, 3, 4, 5, 6] sampleState0
    sampleOrg (by decide)
    (fun u h => by simp [findUserByEmail, sampleState0] at h)
    (by decide)

/-! ## Organization creation (C8) -/

/-- The hex encoding of a byte list has two characters per byte. -/
lemma hexEncode_length (bytes : List Nat) :
    (hexEncode bytes).length = 2 * bytes.length := by
  induction bytes with
  | nil => rfl
  | cons b bs ih =>
    have hb2 : (byteHex b).length = 2 := rfl
    simp only [hexEncode, String.length_append, hb2, ih, List.length_cons]
    omega

/-- C8: for an existing user, `createOrganization` appends exactly one
organization — whose identifier is the name, a dash, and the hex encoding
of the six random bytes — and exactly one membership linking that user to
the new organization as admin; nothing else changes besides the id
counter. -/
theorem C8_createOrganization (s : State) (adminID name : String)
    (bytes : List Nat) (u : UserRec)
    (hu : findUserById s adminID = some u)
    (hb : bytes.length = 6) :
    ∃ org m, createOrganization adminID name bytes s =
        (.ok true,
         { s with organizations := s.organizations ++ [org],
                  memberships := s.memberships ++ [m],
                  nextId := s.nextId + 2 }) ∧
      org.name = name ∧
      org.identifier = name ++ "-" ++ hexEncode bytes ∧
      org.identifier.length = name.length + 13 ∧
      m.userID = adminID ∧ m.organizationID = org.id ∧ m.isAdmin = true := by
  unfold createOrganization
  rw [hu]
  refine ⟨_, _, rfl, rfl, rfl, ?_, rfl, rfl, rfl⟩
  simp only [String.length_append, hexEncode_length, hb]
  have h1 : "-".length = 1 := rfl
  omega

/-- Witness for C8 at a concrete store (user u1 exists). -/
theorem C8_witness :
    ∃ org m, createOrganization "u1" "Beta" [0, 1, 2, 3, 4, 5] sC6 =
        (.ok true,
         { sC6 with organizations := sC6.organizations ++ [org],
                    memberships := sC6.memberships ++ [m],
                    nextId := sC6.nextId + 2 }) ∧
      org.name = "Beta" ∧
      org.identifier = "Beta" ++ "-" ++ hexEncode [0, 1, 2, 3, 4, 5] ∧
      org.identifier.length = "Beta".length + 13 ∧
      m.userID = "u1" ∧ m.organizationID = org.id ∧ m.isAdmin = true :=
  C8_createOrganization sC6 "u1" "Beta" [0, 1, 2, 3, 4, 5]
    ⟨"u1", "a@b.c", ⟨"h"⟩, ⟨"Ann", none, none⟩⟩ (by decide) (by decide)

/-! ## Credential non-leakage of the membership listing (C9) -/

/-- Replace every user row's credential data by an arbitrary function of
the user id and the old credential — the universally quantified change of
credential data of the noninterference statement. -/
def scrubPasswords (g : String → String → String) (s : State) : State :=
  { s with
    users := s.users.map
      (fun u => { u with authData := ⟨g u.id u.authData.password⟩ }) }

/-- Projecting to email and profile data after a credential change gives
the same view as projecting before it. -/
lemma find?_map_proj (g : String → String → String) (l : List UserRec)
    (uid : String) :
    ((l.map (fun u =>
        ({ u with authData := ⟨g u.id u.authData.password⟩ } : UserRec))).find?
          (fun u => u.id == uid)).map
        (fun u => (⟨u.email, u.profileData⟩ : UserView)) =
      (l.find? (fun u => u.id == uid)).map
        (fun u => (⟨u.email, u.profileData⟩ : UserView)) := by
  rw [List.find?_map, Option.map_map]
  rfl

/-- The projected user view is insensitive to credential changes. -/
lemma findUserById_scrub (g : String → String → String) (s : State)
    (uid : String) :
    (findUserById (scrubPasswords g s) uid).map
        (fun u => (⟨u.email, u.profileData⟩ : UserView)) =
      (findUserById s uid).map
        (fun u => (⟨u.email, u.profileData⟩ : UserView)) :=
  find?_map_proj g s.users uid

/-- C9: the result of `fetchOrganizationUsers` is unchanged under every
change of the users' credential data — the projection embeds only the
linked user's email and profile data, so no credential data can reach
the output. -/
theorem C9_fetch_no_credentials (g : String → String → String) (s : State)
    (organizationID : String) :
    fetchOrganizationUsers organizationID (scrubPasswords g s) =
      fetchOrganizationUsers organizationID s := by
  unfold fetchOrganizationUsers
  have hm : (scrubPasswords g s).memberships = s.memberships := rfl
  rw [hm]
  apply List.map_congr_left
  intro m hm2
  rw [show (findUserById (scrubPasswords g s) m.userID).map
        (fun u => (⟨u.email, u.profileData⟩ : UserView)) =
      (findUserById s m.userID).map
        (fun u => (⟨u.email, u.profileData⟩ : UserView))
    from findUserById_scrub g s m.userID]

/-! ## The invitation handshake succeeds exactly once (C2) -/

/-- Creating role rows never touches the membership table. -/
lemma createRoles_memberships (mid : String) (rs : List String) (s : State) :
    (createRoles mid rs s).memberships = s.memberships := by
  induction rs generalizing s with
  | nil => rfl
  | cons r rs ih => simpa [createRoles] using ih _

/-- Creating role rows never touches the key-value store. -/
lemma createRoles_redis (mid : String) (rs : List String) (s : State) :
    (createRoles mid rs s).redis = s.redis := by
  induction rs generalizing s with
  | nil => rfl
  | cons r rs ih => simpa [createRoles] using ih _

/-- An `acceptInvitation` call finding no pending invitation fails the
verification and changes nothing. -/
lemma accept_absent (email organizationID code : String)
    (password : Option String) (s : State)
    (h : redisGet s (inviteKey organizationID email) = none) :
    acceptInvitation email organizationID code password s =
      (.error "unable to verify code", s) := by
  unfold acceptInvitation
  rw [h]

/-- When the organization exists, the final acceptance phase creates
exactly one (non-admin) membership and deletes the pending invitation. -/
lemma acceptFinish_success (email organizationID userID : String)
    (roleNames : List String) (s : State) (org : OrgRec)
    (horg : findOrgById s organizationID = some org) :
    ∃ s2, acceptFinish email organizationID userID (some roleNames) s =
        (.ok true, s2) ∧
      s2.memberships = s.memberships ++
        [⟨freshId s.nextId, userID, organizationID, false⟩] ∧
      redisGet s2 (inviteKey organizationID email) = none := by
  unfold acceptFinish
  rw [horg]
  refine ⟨_, rfl, ?_, ?_⟩
  · show (createRoles (freshId s.nextId) roleNames _).memberships = _
    rw [createRoles_memberships]
  · exact redisGet_del_same ..

/-- Acceptance phase for an invitation marked for an existing user. -/
lemma acceptVerified_success_existing (email organizationID : String)
    (password : Option String) (name : String) (roleNames : List String)
    (s : State) (org : OrgRec) (u : UserRec)
    (hu : findUserByEmail s email = some u)
    (horg : findOrgById s organizationID = some org) :
    ∃ s2, acceptVerified email organizationID password name false
        (some roleNames) s = (.ok true, s2) ∧
      s2.memberships = s.memberships ++
        [⟨freshId s.nextId, u.id, organizationID, false⟩] ∧
      redisGet s2 (inviteKey organizationID email) = none := by
  unfold acceptVerified
  rw [if_neg Bool.false_ne_true]
  simp only [hu]
  exact acceptFinish_success email organizationID u.id roleNames s org horg

/-- Acceptance phase for an invitation marked for a new user: the user
row is created first, then the membership, then the invitation is
deleted. -/
lemma acceptVerified_success_new (email organizationID pw name : String)
    (roleNames : List String) (s : State) (org : OrgRec)
    (hu : findUserByEmail s email = none)
    (horg : findOrgById s organizationID = some org) :
    ∃ s2, acceptVerified email organizationID (some pw) name true
        (some roleNames) s = (.ok true, s2) ∧
      s2.memberships = s.memberships ++
        [⟨freshId (s.nextId + 1), freshId s.nextId, organizationID, false⟩] ∧
      redisGet s2 (inviteKey organizationID email) = none := by
  unfold acceptVerified
  rw [if_pos rfl]
  simp only [hu]
  obtain ⟨s2, h1, h2, h3⟩ :=
    acceptFinish_success email organizationID (freshId s.nextId) roleNames
      { s with
        users := s.users ++
          [⟨freshId s.nextId, email, ⟨bcryptHash pw 10⟩,
            ⟨name, some "", some "verified"⟩⟩],
        nextId := s.nextId + 1 } org horg
  exact ⟨s2, h1, h2, h3⟩

/-- An `acceptInvitation` call against a stored invitation whose code
matches the supplied (non-empty) code succeeds, appends exactly one
non-admin membership, and deletes the pending invitation. -/
lemma accept_success (email organizationID c : String)
    (password : Option String) (name : String) (newuser : Bool)
    (roleNames : List String) (s : State) (org : OrgRec)
    (hget : redisGet s (inviteKey organizationID email) =
      some (.obj (some c) name newuser (some roleNames)))
    (hc : c ≠ "")
    (horg : findOrgById s organizationID = some org)
    (hnu : newuser = true →
      findUserByEmail s email = none ∧ ∃ pw, password = some pw)
    (hex : newuser = false → ∃ u, findUserByEmail s email = some u) :
    ∃ m s2, acceptInvitation email organizationID c password s =
        (.ok true, s2) ∧
      s2.memberships = s.memberships ++ [m] ∧
      m.organizationID = organizationID ∧ m.isAdmin = false ∧
      redisGet s2 (inviteKey organizationID email) = none := by
  unfold acceptInvitation
  simp only [hget]
  rw [if_neg (by simp [hc])]
  cases newuser
  · obtain ⟨u, hu⟩ := hex rfl
    obtain ⟨s2, h1, h2, h3⟩ :=
      acceptVerified_success_existing email organizationID password name
        roleNames s org u hu horg
    exact ⟨_, s2, h1, h2, rfl, rfl, h3⟩
  · obtain ⟨hu, pw, hpw⟩ := hnu rfl
    subst hpw
    obtain ⟨s2, h1, h2, h3⟩ :=
      acceptVerified_success_new email organizationID pw name roleNames s org
        hu horg
    exact ⟨_, s2, h1, h2, rfl, rfl, h3⟩

/-- C2: after a successful `inviteUser` on an existing organization whose
invitee is not yet a member, `acceptInvitation` with the generated code
succeeds exactly once — it appends one non-admin membership and then
deletes the pending invitation, so the very same `acceptInvitation` call
repeated on the resulting state fails with "unable to verify code". -/
theorem C2_invite_accept_consumes_code (ks : Keys)
    (email name organizationID : String) (roles : List String)
    (rands : List Nat) (password : Option String) (s : State) (org : OrgRec)
    (horg : findOrgById s organizationID = some org)
    (hmem : ∀ u, findUserByEmail s email = some u →
      (findMembership s org.id u.id).isSome = false)
    (hlen : (otpGenerate 6 rands).length = 6)
    (hpw : findUserByEmail s email = none → ∃ pw, password = some pw) :
    ∃ s1 s2 m,
      inviteUser ks email name organizationID roles rands s = (.ok true, s1) ∧
      acceptInvitation email organizationID (otpGenerate 6 rands) password s1 =
        (.ok true, s2) ∧
      s2.memberships = s.memberships ++ [m] ∧
      m.organizationID = organizationID ∧ m.isAdmin = false ∧
      redisGet s2 (inviteKey organizationID email) = none ∧
      acceptInvitation email organizationID (otpGenerate 6 rands) password s2 =
        (.error "unable to verify code", s2) := by
  have hinv := inviteUser_success ks email name organizationID roles rands s org horg hmem
  have hc : otpGenerate 6 rands ≠ "" := by
    intro h
    rw [h] at hlen
    simp at hlen
  obtain ⟨m, s2, ha1, ha2, ha3, ha4, ha5⟩ :=
    accept_success email organizationID (otpGenerate 6 rands) password name
      ((findUserByEmail s email).isNone) roles
      (inviteUser ks email name organizationID roles rands s).2 org
      (by rw [hinv]; exact redisGet_set_same ..)
      hc
      (by rw [hinv]; exact horg)
      (fun ht => by
        rw [hinv]
        exact ⟨Option.isNone_iff_eq_none.mp ht,
               hpw (Option.isNone_iff_eq_none.mp ht)⟩)
      (fun hf => by
        rw [hinv]
        rcases hu : findUserByEmail s email with _ | u
        · rw [hu] at hf
          simp at hf
        · exact ⟨u, hu⟩)
  refine ⟨(inviteUser ks email name organizationID roles rands s).2, s2, m,
    by rw [hinv], ha1, ?_, ha3, ha4, ha5,
    accept_absent email organizationID (otpGenerate 6 rands) password s2 ha5⟩
  rw [hinv] at ha2
  exact ha2

/-- Witness for C2 at a concrete store (new-user path): organization o1
exists, nobody carries the invited email, draws 1..6 generate code
"123456". -/
theorem C2_witness :
    ∃ s1 s2 m,
      inviteUser sampleKeys "e@x.com" "Bob" "o1" ["dev"] [1, 2, 3, 4, 5, 6]
        sampleState0 = (.ok true, s1) ∧
      acceptInvitation "e@x.com" "o1" (otpGenerate 6 [1, 2, 3, 4, 5, 6])
        (some "pw") s1 = (.ok true, s2) ∧
      s2.memberships = sampleState0.memberships ++ [m] ∧
      m.organizationID = "o1" ∧ m.isAdmin = false ∧
      redisGet s2 (inviteKey "o1" "e@x.com") = none ∧
      acceptInvitation "e@x.com" "o1" (otpGenerate 6 [1, 2, 3, 4, 5, 6])
        (some "pw") s2 = (.error "unable to verify code", s2) :=
  C2_invite_accept_consumes_code sampleKeys "e@x.com" "Bob" "o1" ["dev"]
    [1, 2, 3, 4, 5, 6] (some "pw") sampleState0 sampleOrg
    (by decide)
    (fun u h => by simp [findUserByEmail, sampleState0] at h)
    (by decide)
    (fun _ => ⟨"pw", rfl⟩)

/-! ## The last admin cannot leave (C5) -/

/-- With duplicate-free ids, distinct rows carry distinct ids. -/
lemma nodup_ids_ne {l : List MembershipRec}
    (h : (l.map (fun x => x.id)).Nodup) {a b : MembershipRec}
    (ha : a ∈ l) (hb : b ∈ l) (hne : a ≠ b) : a.id ≠ b.id := by
  have hp : l.Pairwise (fun x y => x.id ≠ y.id) := List.pairwise_map.mp h
  have hsymm : Symmetric (fun x y : MembershipRec => x.id ≠ y.id) := by
    intro x y hxy
    exact hxy.symm
  exact List.Pairwise.forall hsymm hp ha hb hne

/-- Removing one row (by its duplicate-free id) from a list shortens it
by exactly one. -/
lemma length_filter_ne_id {A : List MembershipRec} {m : MembershipRec}
    (h : (A.map (fun x => x.id)).Nodup) (hm : m ∈ A) :
    (A.filter (fun x => x.id != m.id)).length + 1 = A.length := by
  induction A with
  | nil => cases hm
  | cons a A ih =>
    simp only [List.map_cons, List.nodup_cons] at h
    obtain ⟨hna, hA⟩ := h
    rcases List.mem_cons.mp hm with rfl | hm2
    · have hkeep : A.filter (fun x => x.id != m.id) = A := by
        apply List.filter_eq_self.mpr
        intro b hb
        simp only [bne_iff_ne, ne_eq]
        intro he
        exact hna (he ▸ List.mem_map_of_mem (fun x => x.id) hb)
      simp [List.filter_cons, hkeep]
    · have hane : a.id ≠ m.id :=
        fun he => hna (he ▸ List.mem_map_of_mem (fun x => x.id) hm2)
      have hih := ih hA hm2
      have hcons : (a :: A).filter (fun x => x.id != m.id) =
          a :: A.filter (fun x => x.id != m.id) := by
        simp [List.filter_cons, hane]
      rw [hcons, List.length_cons, List.length_cons]
      omega

/-- The admin count of a fixed organization never drops to zero across
any `leaveOrganization` call (on any user and any organization), provided
membership ids are duplicate-free: a sole admin is refused, and a
successful deletion removes exactly the caller's row. -/
lemma countAdmins_leave_ge_one (s : State) (uid oid orgID : String)
    (hids : (s.memberships.map (fun x => x.id)).Nodup)
    (hpos : 1 ≤ countAdmins s orgID) :
    1 ≤ countAdmins (leaveOrganization uid oid s).2 orgID := by
  unfold leaveOrganization
  rcases hm : findMembership s oid uid with _ | m
  · simp only [hm]
    exact hpos
  · have hmem : m ∈ s.memberships := List.mem_of_find?_eq_some hm
    simp only [hm]
    split
    · exact hpos
    · rename_i hcond
      -- the deletion case: compute the new admin count
      have hlist : countAdmins (deleteMembershipById m.id s) orgID =
          ((adminsOf s orgID).filter (fun x => x.id != m.id)).length := by
        simp only [countAdmins, adminsOf, deleteMembershipById,
          List.filter_filter]
        congr 1
        apply List.filter_congr
        intro x hx
        rw [Bool.and_comm]
      show 1 ≤ countAdmins (deleteMembershipById m.id s) orgID
      rw [hlist]
      have hsubA : ((adminsOf s orgID).map (fun x => x.id)).Nodup :=
        List.Nodup.sublist ((List.filter_sublist _).map _) hids
      by_cases hin : m ∈ adminsOf s orgID
      · -- m is one of the admins being counted: the call's organization is
        -- this one, and the guard rules out a count of one
        have hmflt := (List.mem_filter.mp hin).2
        simp only [Bool.and_eq_true, beq_iff_eq] at hmflt
        have hfind := List.find?_some hm
        simp only [Bool.and_eq_true, beq_iff_eq] at hfind
        have hoid : oid = orgID := by rw [← hfind.1, hmflt.2]
        have hlen1 : (adminsOf s oid).length ≠ 1 := by
          intro he
          exact hcond (by simp [hmflt.1, he])
        have hge1 : 1 ≤ (adminsOf s orgID).length :=
          List.length_pos.mpr (List.ne_nil_of_mem hin)
        have hge2 : 2 ≤ (adminsOf s orgID).length := by
          rw [hoid] at hlen1
          omega
        have := length_filter_ne_id hsubA hin
        omega
      · -- m is not among the counted admins: the filter keeps all of them
        have hkeep : (adminsOf s orgID).filter (fun x => x.id != m.id) =
            adminsOf s orgID := by
          apply List.filter_eq_self.mpr
          intro b hb
          have hbmem : b ∈ s.memberships := (List.mem_filter.mp hb).1
          have hbne : b ≠ m := fun he => hin (he ▸ hb)
          simpa using nodup_ids_ne hids hbmem hmem hbne
        rw [hkeep]
        exact hpos

/-- C5: for an admin membership, `leaveOrganization` fails with
"admin cannot leave organization" (changing nothing) when the admin count
of the organization is exactly one, and succeeds — deleting exactly that
membership and keeping every other row — when at least one other admin
membership exists; consequently, across arbitrary `leaveOrganization`
calls an organization that has an admin membership keeps at least one. -/
theorem C5_last_admin_cannot_leave (s : State) (userID organizationID : String)
    (m : MembershipRec)
    (hids : (s.memberships.map (fun x => x.id)).Nodup)
    (hm : findMembership s organizationID userID = some m)
    (hadm : m.isAdmin = true) :
    (countAdmins s organizationID = 1 →
      leaveOrganization userID organizationID s =
        (.error "admin cannot leave organization", s)) ∧
    (2 ≤ countAdmins s organizationID →
      (leaveOrganization userID organizationID s).1 = .ok true ∧
      m ∉ (leaveOrganization userID organizationID s).2.memberships ∧
      ∀ m2 ∈ s.memberships, m2.id ≠ m.id →
        m2 ∈ (leaveOrganization userID organizationID s).2.memberships) ∧
    (∀ uid oid, 1 ≤ countAdmins s organizationID →
      1 ≤ countAdmins (leaveOrganization uid oid s).2 organizationID) := by
  refine ⟨?_, ?_, fun uid oid hpos =>
    countAdmins_leave_ge_one s uid oid organizationID hids hpos⟩
  · intro h1
    have h1' : (adminsOf s organizationID).length = 1 := h1
    unfold leaveOrganization
    simp only [hm]
    rw [if_pos (by simp [hadm, h1'])]
  · intro h2
    have h2' : 2 ≤ (adminsOf s organizationID).length := h2
    unfold leaveOrganization
    simp only [hm]
    rw [if_neg (by simp [hadm]; omega)]
    refine ⟨rfl, ?_, ?_⟩
    · simp [deleteMembershipById, List.mem_filter]
    · intro m2 hm2 hne
      simp [deleteMembershipById, List.mem_filter, hm2, hne]

/-- A store with two admins of the sample organization. -/
def sC5 : State :=
  ⟨[], [sampleOrg],
   [⟨"m1", "u1", "o1", true⟩, ⟨"m2", "u2", "o1", true⟩], [], [], [], 0⟩

/-- Witness for C5: with a second admin present, u1 leaves successfully
and an admin membership remains. -/
theorem C5_witness :
    (leaveOrganization "u1" "o1" sC5).1 = .ok true ∧
    1 ≤ countAdmins (leaveOrganization "u1" "o1" sC5).2 "o1" := by
  have h := C5_last_admin_cannot_leave sC5 "u1" "o1" ⟨"m1", "u1", "o1", true⟩
    (by decide) (by decide) (by decide)
  exact ⟨(h.2.1 (by decide)).1, h.2.2 "u1" "o1" (by decide)⟩
